import Mathlib

/-!
Verification of the download-orchestration core of a web video-downloader
service. The JavaScript source is shallowly embedded: strings are `List Char`,
external effects (subprocess invocations, HTTP fetches, waits) are recorded as
explicit event traces, and fallible operations return `Except`.
-/

/-- Strings from the source are embedded as character lists. -/
abbrev Msg := List Char

/-- Coerce a Lean string literal to the `List Char` embedding. -/
def sLit (s : String) : Msg := s.data

/-- JS `String.prototype.includes(needle)`: substring containment test. -/
def containsSub (hay needle : Msg) : Bool :=
  (List.range (hay.length + 1)).any (fun i => needle.isPrefixOf (hay.drop i))

/-! ## Filename Sanitizer (`sanitizeFilename`, src/server.js:553-555)

`filename.replace(/[<>:"/\\|?*]/g, '').replace(/\s+/g, ' ').trim()` -/

/-- The character class `[<>:"/\\|?*]` of the first `replace`. -/
def isBadChar (c : Char) : Bool :=
  c == '<' || c == '>' || c == ':' || c == '"' || c == '/' ||
  c == '\\' || c == '|' || c == '?' || c == '*'

/-- JS regex `\s` (whitespace class, as matched by `/\s+/` and removed by
`trim`). -/
def isWs (c : Char) : Bool :=
  c == ' ' || c == '\t' || c == '\n' || c == '\r' ||
  c == '\x0b' || c == '\x0c' || c == '\u00A0' || c == '\u1680' ||
  ('\u2000' ≤ c && c ≤ '\u200A') || c == '\u2028' || c == '\u2029' ||
  c == '\u202F' || c == '\u205F' || c == '\u3000' || c == '\uFEFF'

/-- JS `.replace(/\s+/g, ' ')`: each maximal run of whitespace becomes one
space. The flag records whether the previous character was whitespace (i.e.
we are inside a run whose single replacement space was already emitted). -/
def collapseWsAux (inRun : Bool) : Msg → Msg
  | [] => []
  | c :: cs =>
    if isWs c then
      (if inRun then [] else [' ']) ++ collapseWsAux true cs
    else c :: collapseWsAux false cs

/-- JS `.replace(/\s+/g, ' ')` on a whole string. -/
def collapseWs (l : Msg) : Msg := collapseWsAux false l

/-- JS `String.prototype.trim()`: drop leading and trailing whitespace. -/
def trimWs (l : Msg) : Msg :=
  ((l.dropWhile isWs).reverse.dropWhile isWs).reverse

/-- Function `sanitizeFilename` of src/server.js:553-555: strip the illegal
characters, collapse whitespace runs, trim. -/
def sanitizeFilename (l : Msg) : Msg :=
  trimWs (collapseWs (l.filter (fun c => !isBadChar c)))

/-! ## External-effect events

Every subprocess invocation, backoff wait and fallback entry performed by the
pipeline is recorded as one event, so temporal claims become statements about
the produced trace. -/

/-- One observable external effect of the pipeline. -/
inductive ExtEv where
  /-- `execAsync("<cmd> --version", {timeout})` probing one candidate. -/
  | probe (cmd : Msg) (timeoutMs : Nat)
  /-- `execAsync` of the `--dump-single-json` metadata command. -/
  | metaQuery (timeoutMs : Nat)
  /-- `await new Promise(resolve => setTimeout(resolve, ms))`. -/
  | waitMs (ms : Nat)
  /-- `execAsync(downloadStrategies[i], {timeout})`. -/
  | stratAttempt (i : Nat) (timeoutMs : Nat)
  /-- entering `downloadViaInvidious` (the fallback provider). -/
  | invidiousCall
  deriving DecidableEq, Repr

/-- Count the events of a trace satisfying `p`. -/
def countEv (t : List ExtEv) (p : ExtEv → Bool) : Nat := (t.filter p).length

/-- Recognize probe events. -/
def isProbeEv : ExtEv → Bool
  | .probe _ _ => true
  | _ => false

/-- Recognize strategy-attempt events. -/
def isStratEv : ExtEv → Bool
  | .stratAttempt _ _ => true
  | _ => false

/-- Recognize fallback-entry events. -/
def isInvidiousEv : ExtEv → Bool
  | .invidiousCall => true
  | _ => false

/-! ## External Downloader Invoker (src/server.js:563-586) -/

/-- The fixed ordered candidate commands (src/server.js:568). -/
def ytdlpOptions : List Msg :=
  [sLit "yt-dlp", sLit "python3 -m yt_dlp", sLit "/opt/venv/bin/yt-dlp"]

/-- The probe loop of src/server.js:570-579: run `cmd --version` with a 5s
timeout for each candidate in order; keep the first that succeeds; `probeOk`
models whether the probe of a given candidate succeeds. -/
def detectLoop (probeOk : Msg → Bool) : List Msg → List ExtEv × Except Msg Msg
  | [] => ([], .error (sLit "yt-dlp não encontrado"))
  | c :: rest =>
    if probeOk c then ([.probe c 5000], .ok c)
    else
      let r := detectLoop probeOk rest
      (.probe c 5000 :: r.1, r.2)

/-- Command detection (src/server.js:563-586): in production probe the
candidate list; otherwise use the fixed local path without probing. -/
def detectYtDlp (isProduction : Bool) (probeOk : Msg → Bool) :
    List ExtEv × Except Msg Msg :=
  if isProduction then detectLoop probeOk ytdlpOptions
  else ([], .ok (sLit "./yt-dlp"))

/-! ## Video metadata (src/server.js:588-604, 664-680) -/

/-- The JSON metadata object returned by the `--dump-single-json` query.
`Option` fields model JS fields that may be `undefined`. -/
structure VideoInfo where
  title : Msg
  uploader? : Option Msg
  channel? : Option Msg
  duration? : Option Nat
  viewCount? : Option Nat
  height? : Option Nat
  id : Msg
  deriving DecidableEq

/-- JS `a || b` on an optional string: `undefined` and `""` are falsy. -/
def jsOrMsg (o : Option Msg) (d : Msg) : Msg :=
  match o with
  | some s => if s = [] then d else s
  | none => d

/-- JS truthiness of an optional number: `undefined` and `0` are falsy. -/
def jsTruthyNat (o : Option Nat) : Bool :=
  match o with
  | some n => n != 0
  | none => false

/-- JS `seconds.toString().padStart(2, '0')`. -/
def pad2 (n : Nat) : Msg :=
  let s := (toString n).data
  if s.length < 2 then '0' :: s else s

/-- The `M:SS` duration formatting of src/server.js:665-668. -/
def formatDuration (seconds : Nat) : Msg :=
  (toString (seconds / 60)).data ++ ':' :: pad2 (seconds % 60)

/-- JS `Number.prototype.toLocaleString()` on a view count, modelled with the
default en-US digit grouping (commas every three digits from the right). -/
def insertCommasRev : Msg → Nat → Msg
  | [], _ => []
  | c :: cs, k =>
    if k % 3 == 0 && k != 0 then ',' :: c :: insertCommasRev cs (k + 1)
    else c :: insertCommasRev cs (k + 1)

/-- JS `parseInt(view_count).toLocaleString()` (en-US grouping). -/
def toLocaleStringModel (n : Nat) : Msg :=
  (insertCommasRev (toString n).data.reverse 0).reverse

/-- The `videoInfo` summary object built at src/server.js:670-680. -/
structure WebVideoInfo where
  title : Msg
  author : Msg
  duration : Msg
  views : Msg
  quality : Msg
  method : Msg
  deriving DecidableEq

/-- The value returned by `downloadViaYtDlp` on success. -/
structure DlOutcome where
  filename : Msg
  videoInfo : WebVideoInfo
  deriving DecidableEq

/-- Build the response summary from the parsed metadata
(src/server.js:670-680). -/
def ytVideoInfo (info : VideoInfo) : WebVideoInfo :=
  { title := info.title
    author := jsOrMsg info.uploader? (jsOrMsg info.channel? (sLit "N/A"))
    duration := formatDuration (info.duration?.getD 0)
    views := if jsTruthyNat info.viewCount?
      then toLocaleStringModel (info.viewCount?.getD 0) else sLit "N/A"
    quality := if jsTruthyNat info.height?
      then (toString (info.height?.getD 0)).data ++ [ 'p' ] else sLit "N/A"
    method := sLit "yt-dlp" }

/-- JS `sanitizeFilename(info.title) || `video_${info.id}_${Date.now()}``
(src/server.js:603). -/
def sanitizedTitleOf (nowMs : Nat) (info : VideoInfo) : Msg :=
  let t := sanitizeFilename info.title
  if t = [] then sLit "video_" ++ info.id ++ '_' :: (toString nowMs).data
  else t

/-! ## Strategy Runner (src/server.js:614-646) -/

/-- The events of attempt `i`: the fixed 2s backoff precedes every attempt
after the first (src/server.js:626-628), and each attempt runs with the 300s
timeout (src/server.js:630-633). -/
def stepEvs (i : Nat) : List ExtEv :=
  if i = 0 then [.stratAttempt 0 300000]
  else [.waitMs 2000, .stratAttempt i 300000]

/-- The `for` loop of src/server.js:622-646 over the remaining strategy
outcomes, where `i` is the current index and `lastErr` the last caught error.
`none` in `outcomes` models the attempt's `execAsync` resolving; `some e`
models it throwing `e`. On success the loop `break`s with that index; after
exhausting all strategies it throws the last error (or the fixed message when
no strategy ran). -/
def runStrategiesAux : Nat → List (Option Msg) → Option Msg →
    List ExtEv × Except Msg Nat
  | _, [], lastErr =>
    ([], .error (lastErr.getD (sLit "Todas as estratégias falharam")))
  | i, o :: rest, _lastErr =>
    match o with
    | none => (stepEvs i, .ok i)
    | some e =>
      let r := runStrategiesAux (i + 1) rest (some e)
      (stepEvs i ++ r.1, r.2)

/-- The strategy loop started at index 0 with no previous error. -/
def runStrategies (outcomes : List (Option Msg)) :
    List ExtEv × Except Msg Nat :=
  runStrategiesAux 0 outcomes none

/-- The canonical trace of attempts `0..k` in order, each attempt after the
first preceded by the 2s backoff. -/
def traceUpTo (k : Nat) : List ExtEv :=
  (List.range (k + 1)).flatMap stepEvs

/-! ## File Locator/Verifier (src/server.js:648-662) -/

/-- One directory entry with its `fs.statSync` data. -/
structure FileEntry where
  name : Msg
  mtimeMs : Int
  size : Nat
  deriving DecidableEq

/-- The comparator `(a, b) => statB.mtime - statA.mtime` of
src/server.js:651 as the boolean order `mergeSort` takes: `a` stays before
`b` when `b` is not newer. -/
def mtimeDesc (a b : FileEntry) : Bool := b.mtimeMs ≤ a.mtimeMs

/-- src/server.js:649-662: list the directory, keep names starting with the
sanitized title, sort by modification time descending (V8 `sort` is stable,
as is `mergeSort`), take the first; fail if none matches or the chosen file
is empty. -/
def locateFile (title : Msg) (dir : List FileEntry) : Except Msg Msg :=
  match (dir.filter (fun f => title.isPrefixOf f.name)).mergeSort mtimeDesc with
  | [] => .error (sLit "Arquivo não foi criado")
  | f :: _ =>
    if f.size = 0 then .error (sLit "Arquivo vazio ou corrompido")
    else .ok f.name

/-! ## The yt-dlp pipeline (src/server.js:546-681) -/

/-- The environment one request runs against: which probes succeed, what the
metadata query returns, how each strategy attempt ends, and what the output
directory contains afterwards. For the metadata query, `.error m` models
`execAsync` (or `JSON.parse`) throwing `m`; `.ok none` models output parsing
to a falsy value (the `!info` check); `.ok (some info)` is a successful
parse. -/
structure YtEnv where
  isProduction : Bool
  probeOk : Msg → Bool
  metaExec : Except Msg (Option VideoInfo)
  stratOutcomes : List (Option Msg)
  dirListing : List FileEntry
  nowMs : Nat

/-- Fail-fast sequencing of traced steps: if the step threw, the pipeline
stops with its error and trace; otherwise the continuation runs and the
traces concatenate (the `await`/`throw` control flow of the JS pipeline). -/
def withTrace {α β : Type} (r : List ExtEv × Except Msg α)
    (k : α → List ExtEv × Except Msg β) : List ExtEv × Except Msg β :=
  match r.2 with
  | .error m => (r.1, .error m)
  | .ok a =>
    let s := k a
    (r.1 ++ s.1, s.2)

/-- The `info` checks of src/server.js:592-598: an exec/parse failure throws
its error; parsed-but-falsy output throws the fixed message. -/
def metaResolve (r : Except Msg (Option VideoInfo)) : Except Msg VideoInfo :=
  match r with
  | .error m => .error m
  | .ok none => .error (sLit "Não foi possível obter informações do vídeo")
  | .ok (some info) => .ok info

/-- Function `downloadViaYtDlp` (src/server.js:546-681): detect the tool, query the
metadata (30s timeout), run the download strategies, then locate and verify
the output file; each step stops the pipeline on failure. Returns the trace
of external effects next to the result. -/
def downloadViaYtDlp (env : YtEnv) : List ExtEv × Except Msg DlOutcome :=
  withTrace (detectYtDlp env.isProduction env.probeOk) fun _cmd =>
  withTrace ([.metaQuery 30000], metaResolve env.metaExec) fun info =>
  withTrace (runStrategies env.stratOutcomes) fun _i =>
  withTrace ([], locateFile (sanitizedTitleOf env.nowMs info) env.dirListing)
    fun fname =>
  ([], .ok { filename := fname, videoInfo := ytVideoInfo info })

/-! ## Primary/fallback reroute (`downloadVideoForWeb`, src/server.js:522-544) -/

/-- The fixed bot-detection/age-restriction signatures checked at
src/server.js:533-535. -/
def botSignatures : List Msg :=
  [sLit "Sign in to confirm", sLit "bot", sLit "age"]

/-- JS `error.message.includes(...)` over the three signatures. -/
def isBotError (m : Msg) : Bool :=
  botSignatures.any (fun s => containsSub m s)

/-- The environment of a whole request: the yt-dlp environment plus the
outcome `downloadViaInvidious` would produce if entered. -/
structure SysEnv where
  yt : YtEnv
  invidiousResult : Except Msg DlOutcome

/-- Function `downloadVideoForWeb` (src/server.js:522-544): try yt-dlp; on an error
whose message carries a bot-detection signature reroute once to the
Invidious fallback, otherwise rethrow the error unchanged. -/
def downloadVideoForWeb (env : SysEnv) : List ExtEv × Except Msg DlOutcome :=
  let r := downloadViaYtDlp env.yt
  match r.2 with
  | .ok o => (r.1, .ok o)
  | .error m =>
    if isBotError m then (r.1 ++ [.invidiousCall], env.invidiousResult)
    else (r.1, .error m)

/-! ## HTTP boundary of `/download` (src/server.js:226-332) -/

/-- The request body `{url, format}`; `none` models an absent field. -/
structure DownloadReq where
  url : Option Msg
  format : Option Msg
  deriving DecidableEq

/-- The accepted values of the `format` field (src/server.js:249). -/
def validFormats : List Msg := [sLit "mp4", sLit "webm", sLit "mp3"]

/-- Drop a literal from the front of the input, or fail. -/
def afterLit (s : String) (l : Msg) : Option Msg :=
  if s.data.isPrefixOf l then some (l.drop s.data.length) else none

/-- JS `\w` (`[A-Za-z0-9_]`), or the extra `-` of the class `[\w-]`. -/
def isWordDash (c : Char) : Bool :=
  c.isAlpha || c.isDigit || c == '_' || c == '-'

/-- Function `validateYouTubeUrl` (src/server.js:221-224): test against
`/^https?:\/\/(www\.)?(youtube\.com\/watch\?v=|youtu\.be\/)[\w-]{11}/`.
The optional groups never overlap the following literals, so the greedy
deterministic reading below coincides with the regex. -/
def validateYouTubeUrl (url : Msg) : Bool :=
  match afterLit "http" url with
  | none => false
  | some r1 =>
    let r2 := (afterLit "s" r1).getD r1
    match afterLit "://" r2 with
    | none => false
    | some r3 =>
      let r4 := (afterLit "www." r3).getD r3
      match (afterLit "youtube.com/watch?v=" r4).orElse
          (fun _ => afterLit "youtu.be/" r4) with
      | none => false
      | some r5 => decide (11 ≤ r5.length) && (r5.take 11).all isWordDash

deriving instance DecidableEq for Except

/-- The response of the `/download` route. -/
structure HandlerRes where
  status : Nat
  body : Except Msg DlOutcome
  evs : List ExtEv
  deriving DecidableEq

/-- The `/download` handler (src/server.js:226-332): reject a missing or
empty url, an url failing `validateYouTubeUrl`, and a format outside
`['mp4','webm','mp3']` (absent format defaults to `'mp4'`), all with 400 and
before any external call; otherwise run `downloadVideoForWeb(url)` — the
format is not passed — answering 200 with its payload or 500 with the
generic internal-error message. -/
def handleDownload (req : DownloadReq) (env : SysEnv) : HandlerRes :=
  match req.url with
  | none => ⟨400, .error (sLit "URL é obrigatória"), []⟩
  | some url =>
    if url = [] then ⟨400, .error (sLit "URL é obrigatória"), []⟩
    else if validateYouTubeUrl url = false then
      ⟨400, .error (sLit "URL do YouTube inválida"), []⟩
    else if validFormats.contains (req.format.getD (sLit "mp4")) = false then
      ⟨400, .error (sLit "Formato inválido. Use: mp4, webm ou mp3"), []⟩
    else
      let r := downloadVideoForWeb env
      match r.2 with
      | .ok o => ⟨200, .ok o, r.1⟩
      | .error _ => ⟨500, .error (sLit "Erro interno do servidor"), r.1⟩

/-- The `format` field values of any valid request: the three accepted
formats or the absent field (which defaults to `'mp4'`). -/
def allowedFormatFields : List (Option Msg) :=
  [none, some (sLit "mp4"), some (sLit "webm"), some (sLit "mp3")]

/-! ## Retention Sweeper (`cleanupOldFiles`, src/server.js:138-175) -/

/-- One file of the downloads directory as the sweeper sees it; `unlinkOk`
models whether `fs.unlinkSync` succeeds on it. -/
structure SweepFile where
  name : Msg
  mtimeMs : Nat
  unlinkOk : Bool
  deriving DecidableEq

/-- Function `cleanupOldFiles` (src/server.js:138-175): for each file compute
`age = now - mtime` and delete it when `age > maxAge * 60 * 60 * 1000`; the
per-file `try/catch` means a failing `unlinkSync` only skips that file and
the iteration continues. Returns the names actually deleted, in directory
order. -/
def cleanupOldFiles (nowMs maxAgeHours : Nat) (files : List SweepFile) :
    List Msg :=
  files.foldl (fun acc f =>
    if nowMs - f.mtimeMs > maxAgeHours * 60 * 60 * 1000 then
      (if f.unlinkOk then acc ++ [f.name] else acc)
    else acc) []

/-! ## Error classification (src/server.js:1566-1585) -/

/-- The generic message the route answers with on any download failure
(src/server.js:300-303). -/
def genericInternalError : Msg := sLit "Erro interno do servidor"

/-- The fixed signature substrings matched against the raw error text
(src/server.js:1570-1581). -/
def errorSignatures : List Msg :=
  [sLit "Video unavailable", sLit "Private video",
   sLit "Sign in to confirm", sLit "age",
   sLit "This video is not available", sLit "removed",
   sLit "network", sLit "timeout", sLit "Connection",
   sLit "format", sLit "No video formats",
   sLit "Command failed"]

/-- The error-classification chain of src/server.js:1569-1584, producing the
user-facing message rethrown by the pipeline. -/
def classifyError (m : Msg) : Msg :=
  if containsSub m (sLit "Video unavailable")
      || containsSub m (sLit "Private video") then
    sLit "Vídeo não disponível ou privado"
  else if containsSub m (sLit "Sign in to confirm")
      || containsSub m (sLit "age") then
    sLit "Vídeo requer confirmação de idade"
  else if containsSub m (sLit "This video is not available")
      || containsSub m (sLit "removed") then
    sLit "Este vídeo não está disponível"
  else if containsSub m (sLit "network") || containsSub m (sLit "timeout")
      || containsSub m (sLit "Connection") then
    sLit "Erro de rede durante o download"
  else if containsSub m (sLit "format")
      || containsSub m (sLit "No video formats") then
    sLit "Formato de vídeo não suportado"
  else if containsSub m (sLit "Command failed") then
    sLit "Erro ao executar yt-dlp. Verifique se está instalado"
  else sLit "Erro ao processar vídeo"

/-- The closed set of messages `classifyError` can produce. -/
def classificationMessages : List Msg :=
  [sLit "Vídeo não disponível ou privado",
   sLit "Vídeo requer confirmação de idade",
   sLit "Este vídeo não está disponível",
   sLit "Erro de rede durante o download",
   sLit "Formato de vídeo não suportado",
   sLit "Erro ao executar yt-dlp. Verifique se está instalado",
   sLit "Erro ao processar vídeo"]

/-! ## Process model for the probe-caching claim -/

/-- The trace of `n` sequential `/download` requests served by one process
against the same environment. `downloadViaYtDlp` keeps `ytDlpCommand` in a
function-local variable and the module has no process-wide cache, so each
request contributes an identical, independent trace. -/
def processTrace (n : Nat) (env : YtEnv) : List ExtEv :=
  match n with
  | 0 => []
  | n + 1 => (downloadViaYtDlp env).1 ++ processTrace n env

/-- A concrete production environment whose first candidate probe succeeds
and whose metadata query fails (so each request's trace stays short). -/
def c3Env : YtEnv :=
  { isProduction := true
    probeOk := fun c => c = sLit "yt-dlp"
    metaExec := .error (sLit "x")
    stratOutcomes := []
    dirListing := []
    nowMs := 0 }

/-- No two adjacent characters are both whitespace. -/
def NoAdjWs (l : Msg) : Prop :=
  List.Chain' (fun a b => isWs a = false ∨ isWs b = false) l

/-! ## C5: the Filename Sanitizer -/

/-- Characters emitted by `collapseWsAux` either come from the input or are
the replacement space. -/
theorem mem_collapseWsAux : ∀ (b : Bool) (l : Msg) (c : Char),
    c ∈ collapseWsAux b l → c ∈ l ∨ c = ' ' := by
  intro b l
  induction l generalizing b with
  | nil => intro c h; simp [collapseWsAux] at h
  | cons d ds ih =>
    intro c h
    simp only [collapseWsAux] at h
    by_cases hd : isWs d
    · simp only [hd, if_pos] at h
      rcases List.mem_append.mp h with h1 | h1
      · cases b with
        | true => simp at h1
        | false => simp at h1; right; exact h1
      · rcases ih true c h1 with h2 | h2
        · left; exact List.mem_cons_of_mem _ h2
        · right; exact h2
    · simp only [hd, if_neg, Bool.false_eq_true, not_false_iff] at h
      rcases List.mem_cons.mp h with h1 | h1
      · left; exact h1 ▸ List.mem_cons_self _ _
      · rcases ih false c h1 with h2 | h2
        · left; exact List.mem_cons_of_mem _ h2
        · right; exact h2

/-- Every whitespace character surviving `collapseWsAux` is the single
replacement space. -/
theorem ws_mem_collapseWsAux : ∀ (b : Bool) (l : Msg) (c : Char),
    c ∈ collapseWsAux b l → isWs c = true → c = ' ' := by
  intro b l
  induction l generalizing b with
  | nil => intro c h; simp [collapseWsAux] at h
  | cons d ds ih =>
    intro c h hws
    simp only [collapseWsAux] at h
    by_cases hd : isWs d
    · simp only [hd, if_pos] at h
      rcases List.mem_append.mp h with h1 | h1
      · cases b with
        | true => simp at h1
        | false => simpa using h1
      · exact ih true c h1 hws
    · simp only [hd, if_neg, Bool.false_eq_true, not_false_iff] at h
      rcases List.mem_cons.mp h with h1 | h1
      · subst h1; simp [hd] at hws
      · exact ih false c h1 hws

/-- After a whitespace run was entered, the next emitted character is not
whitespace. -/
theorem head?_collapseWsAux_true : ∀ (l : Msg) (c : Char),
    (collapseWsAux true l).head? = some c → isWs c = false := by
  intro l
  induction l with
  | nil => intro c h; simp [collapseWsAux] at h
  | cons d ds ih =>
    intro c h
    simp only [collapseWsAux] at h
    by_cases hd : isWs d
    · simp only [hd, if_pos] at h
      exact ih c (by simpa using h)
    · simp only [hd, if_neg, Bool.false_eq_true, not_false_iff] at h
      simp only [List.head?_cons, Option.some.injEq] at h
      subst h; exact Bool.not_eq_true _ ▸ (by simpa using hd)

/-- The collapsed string never contains two adjacent whitespace
characters. -/
theorem noAdjWs_collapseWsAux : ∀ (b : Bool) (l : Msg),
    NoAdjWs (collapseWsAux b l) := by
  intro b l
  induction l generalizing b with
  | nil => exact trivial
  | cons d ds ih =>
    simp only [collapseWsAux]
    by_cases hd : isWs d
    · simp only [hd, if_pos]
      cases b with
      | true => simpa using ih true
      | false =>
        show NoAdjWs (' ' :: collapseWsAux true ds)
        refine List.chain'_cons'.mpr ⟨?_, ih true⟩
        intro y hy
        exact Or.inr (head?_collapseWsAux_true ds y hy)
    · simp only [hd, if_neg, Bool.false_eq_true, not_false_iff]
      refine List.chain'_cons'.mpr ⟨?_, ih false⟩
      intro y _
      exact Or.inl (by simpa using hd)

/-- Function `trimWs` only removes characters. -/
theorem mem_trimWs (l : Msg) (c : Char) (h : c ∈ trimWs l) : c ∈ l := by
  unfold trimWs at h
  rw [List.mem_reverse] at h
  have h1 := (List.dropWhile_sublist (l := (l.dropWhile isWs).reverse) isWs).subset h
  rw [List.mem_reverse] at h1
  exact (List.dropWhile_sublist (l := l) isWs).subset h1

/-- Function `trimWs` preserves the no-adjacent-whitespace invariant. -/
theorem noAdjWs_trimWs (l : Msg) (h : NoAdjWs l) : NoAdjWs (trimWs l) := by
  unfold NoAdjWs trimWs
  have h1 := List.Chain'.suffix h (List.dropWhile_suffix (l := l) isWs)
  have h2 := List.chain'_reverse.mpr (h1.imp (fun a b hab => Or.symm hab))
  have h3 := List.Chain'.suffix h2
    (List.dropWhile_suffix (l := (l.dropWhile isWs).reverse) isWs)
  exact List.chain'_reverse.mpr (h3.imp (fun a b hab => Or.symm hab))

/-- The first character of a trimmed string is not whitespace. -/
theorem head?_trimWs (l : Msg) (c : Char) (h : (trimWs l).head? = some c) :
    isWs c = false := by
  unfold trimWs at h
  obtain ⟨t, ht⟩ := List.dropWhile_suffix (l := (l.dropWhile isWs).reverse) isWs
  have hm : l.dropWhile isWs
      = ((l.dropWhile isWs).reverse.dropWhile isWs).reverse ++ t.reverse := by
    conv_lhs => rw [← List.reverse_reverse (l.dropWhile isWs), ← ht]
    rw [List.reverse_append]
  cases hrev : ((l.dropWhile isWs).reverse.dropWhile isWs).reverse with
  | nil => rw [hrev] at h; simp at h
  | cons x xs =>
    rw [hrev] at h hm
    simp only [List.head?_cons, Option.some.injEq] at h
    subst h
    have h2 := List.head?_dropWhile_not isWs l
    rw [hm] at h2
    simpa using h2

/-- The last character of a trimmed string is not whitespace. -/
theorem getLast?_trimWs (l : Msg) (c : Char)
    (h : (trimWs l).getLast? = some c) : isWs c = false := by
  unfold trimWs at h
  rw [List.getLast?_reverse] at h
  have h2 := List.head?_dropWhile_not isWs (l.dropWhile isWs).reverse
  rw [h] at h2
  simpa using h2

/-- C5 (confirmed): for every input string, `sanitizeFilename` returns a
string containing none of the characters in the set removed by the first
`replace`, in which every remaining whitespace character is a single space
never adjacent to another whitespace character, and which neither starts
nor ends with whitespace. -/
theorem c5_sanitizeFilename_safe (l : Msg) :
    (∀ c ∈ sanitizeFilename l, isBadChar c = false)
    ∧ (∀ c ∈ sanitizeFilename l, isWs c = true → c = ' ')
    ∧ NoAdjWs (sanitizeFilename l)
    ∧ (∀ c, (sanitizeFilename l).head? = some c → isWs c = false)
    ∧ (∀ c, (sanitizeFilename l).getLast? = some c → isWs c = false) := by
  unfold sanitizeFilename
  refine ⟨?_, ?_, ?_, ?_, ?_⟩
  · intro c hc
    have h1 := mem_trimWs _ c hc
    rcases mem_collapseWsAux false _ c h1 with h2 | h2
    · have := List.of_mem_filter h2
      simpa using this
    · subst h2; decide
  · intro c hc hws
    exact ws_mem_collapseWsAux false _ c (mem_trimWs _ c hc) hws
  · exact noAdjWs_trimWs _ (noAdjWs_collapseWsAux false _)
  · intro c hc; exact head?_trimWs _ c hc
  · intro c hc; exact getLast?_trimWs _ c hc

/-- Closed instantiation of C5 at a concrete title. -/
theorem c5_sanitizeFilename_safe_witness :
    isBadChar 'b' = false
    ∧ ('a' = 'a')
    ∧ NoAdjWs (sanitizeFilename (sLit " a:  \t b* "))
    ∧ isWs 'a' = false
    ∧ isWs 'b' = false :=
  ⟨(c5_sanitizeFilename_safe (sLit " a:  \t b* ")).1 'b' (by decide),
   rfl,
   (c5_sanitizeFilename_safe (sLit " a:  \t b* ")).2.2.1,
   (c5_sanitizeFilename_safe (sLit " a:  \t b* ")).2.2.2.1 'a' (by decide),
   (c5_sanitizeFilename_safe (sLit " a:  \t b* ")).2.2.2.2 'b' (by decide)⟩

/-! ## C1: the Strategy Runner -/

/-- Starting the loop at index `i` on strategies that all fail until the
first success: the loop emits exactly the attempts `i .. i + fails.length`
in order (each after the first with its 2s backoff) and stops with that
success. -/
theorem runStrategiesAux_success (fails : List Msg) :
    ∀ (i : Nat) (rest : List (Option Msg)) (last : Option Msg),
    runStrategiesAux i (fails.map Option.some ++ Option.none :: rest) last
      = ((List.range' i (fails.length + 1)).flatMap stepEvs,
         .ok (i + fails.length)) := by
  induction fails with
  | nil =>
    intro i rest last
    simp [runStrategiesAux, List.range'_succ]
  | cons e fs ih =>
    intro i rest last
    show (stepEvs i
          ++ (runStrategiesAux (i + 1)
                (fs.map Option.some ++ Option.none :: rest) (some e)).1,
          (runStrategiesAux (i + 1)
                (fs.map Option.some ++ Option.none :: rest) (some e)).2) = _
    rw [ih]
    rw [List.length_cons, List.range'_succ, List.flatMap_cons]
    simp only [Prod.mk.injEq]
    refine ⟨rfl, ?_⟩
    congr 1
    omega

/-- Starting the loop at index `i` on strategies that all fail: the loop
emits every attempt in order and throws the error of the last strategy. -/
theorem runStrategiesAux_allFail (fails : List Msg) :
    ∀ (e : Msg) (i : Nat) (last : Option Msg),
    runStrategiesAux i (fails.map Option.some ++ [Option.some e]) last
      = ((List.range' i (fails.length + 1)).flatMap stepEvs, .error e) := by
  induction fails with
  | nil =>
    intro e i last
    simp [runStrategiesAux, List.range'_succ]
  | cons e' fs ih =>
    intro e i last
    show (stepEvs i
          ++ (runStrategiesAux (i + 1)
                (fs.map Option.some ++ [Option.some e]) (some e')).1,
          (runStrategiesAux (i + 1)
                (fs.map Option.some ++ [Option.some e]) (some e')).2) = _
    rw [ih]
    simp [List.range'_succ]

/-- C1 (confirmed): the Strategy Runner attempts the configured strategies
strictly in order with the fixed 2s backoff before every attempt after the
first; at the first succeeding strategy it stops immediately — the
strategies after it contribute no attempt — and when every strategy fails it
throws the last observed error. -/
theorem c1_strategy_runner :
    (∀ (fails : List Msg) (rest : List (Option Msg)),
      runStrategies (fails.map Option.some ++ Option.none :: rest)
        = (traceUpTo fails.length, .ok fails.length))
    ∧ (∀ (fails : List Msg) (e : Msg),
      runStrategies (fails.map Option.some ++ [Option.some e])
        = (traceUpTo fails.length, .error e)) := by
  constructor
  · intro fails rest
    unfold runStrategies traceUpTo
    rw [List.range_eq_range', runStrategiesAux_success]
    simp
  · intro fails e
    unfold runStrategies traceUpTo
    rw [List.range_eq_range', runStrategiesAux_allFail]

/-! ## Trace bookkeeping lemmas -/

/-- Event counts add over trace concatenation. -/
theorem countEv_append (a b : List ExtEv) (p : ExtEv → Bool) :
    countEv (a ++ b) p = countEv a p + countEv b p := by
  unfold countEv
  rw [List.filter_append, List.length_append]

/-- A trace without events satisfying `p` counts zero of them. -/
theorem countEv_eq_zero (t : List ExtEv) (p : ExtEv → Bool)
    (h : ∀ e ∈ t, p e = false) : countEv t p = 0 := by
  unfold countEv
  rw [List.filter_eq_nil_iff.mpr (by intro a ha; simp [h a ha])]
  rfl

/-- The probe loop emits probe events only. -/
theorem mem_detectLoop (probeOk : Msg → Bool) :
    ∀ (cands : List Msg), ∀ e ∈ (detectLoop probeOk cands).1,
      isProbeEv e = true := by
  intro cands
  induction cands with
  | nil => intro e he; simp [detectLoop] at he
  | cons c cs ih =>
    intro e he
    simp only [detectLoop] at he
    by_cases hp : probeOk c
    · simp [hp] at he
      subst he; rfl
    · simp [hp] at he
      rcases he with he | he
      · subst he; rfl
      · exact ih e he

/-- Tool detection emits probe events only. -/
theorem mem_detectYtDlp (isProd : Bool) (probeOk : Msg → Bool) :
    ∀ e ∈ (detectYtDlp isProd probeOk).1, isProbeEv e = true := by
  unfold detectYtDlp
  split
  · exact mem_detectLoop probeOk ytdlpOptions
  · intro e he
    simp at he

/-- Each loop step emits the backoff wait and the attempt only. -/
theorem mem_stepEvs (i : Nat) :
    ∀ e ∈ stepEvs i,
      e = ExtEv.waitMs 2000 ∨ ∃ j, e = ExtEv.stratAttempt j 300000 := by
  intro e he
  unfold stepEvs at he
  by_cases h : i = 0
  · simp [h] at he
    exact Or.inr ⟨0, he⟩
  · simp [h] at he
    rcases he with he | he
    · exact Or.inl he
    · exact Or.inr ⟨i, he⟩

/-- The strategy loop emits backoff waits and attempts only. -/
theorem mem_runStrategiesAux :
    ∀ (outs : List (Option Msg)) (i : Nat) (last : Option Msg),
    ∀ e ∈ (runStrategiesAux i outs last).1,
      e = ExtEv.waitMs 2000 ∨ ∃ j, e = ExtEv.stratAttempt j 300000 := by
  intro outs
  induction outs with
  | nil => intro i last e he; simp [runStrategiesAux] at he
  | cons o os ih =>
    intro i last e he
    cases o with
    | none =>
      exact mem_stepEvs i e (by simpa [runStrategiesAux] using he)
    | some m =>
      simp only [runStrategiesAux] at he
      rcases List.mem_append.mp he with h1 | h1
      · exact mem_stepEvs i e h1
      · exact ih (i + 1) (some m) e h1

/-- Members of a sequenced trace come from the step or, when the step
succeeded, from the continuation. -/
theorem mem_withTrace {α β : Type} (r : List ExtEv × Except Msg α)
    (k : α → List ExtEv × Except Msg β) (e : ExtEv)
    (he : e ∈ (withTrace r k).1) :
    e ∈ r.1 ∨ ∃ a, r.2 = .ok a ∧ e ∈ (k a).1 := by
  unfold withTrace at he
  cases hr : r.2 with
  | error m => rw [hr] at he; exact Or.inl he
  | ok a =>
    rw [hr] at he
    rcases List.mem_append.mp he with h1 | h1
    · exact Or.inl h1
    · exact Or.inr ⟨a, rfl, h1⟩

/-- The yt-dlp pipeline never enters the Invidious fallback itself. -/
theorem downloadViaYtDlp_no_invidious (env : YtEnv) :
    ∀ e ∈ (downloadViaYtDlp env).1, isInvidiousEv e = false := by
  intro e he
  unfold downloadViaYtDlp at he
  rcases mem_withTrace _ _ e he with h1 | ⟨cmd, _, h1⟩
  · have := mem_detectYtDlp env.isProduction env.probeOk e h1
    cases e <;> simp_all [isProbeEv, isInvidiousEv]
  · rcases mem_withTrace _ _ e h1 with h2 | ⟨info, _, h2⟩
    · simp at h2
      subst h2; rfl
    · rcases mem_withTrace _ _ e h2 with h3 | ⟨i, _, h3⟩
      · rcases mem_runStrategiesAux env.stratOutcomes 0 none e h3 with h | ⟨j, h⟩ <;>
          subst h <;> rfl
      · rcases mem_withTrace _ _ e h3 with h4 | ⟨fname, _, h4⟩ <;> simp at h4

/-- A failing step stops the sequenced pipeline with its own error. -/
theorem withTrace_error {α β : Type} (r : List ExtEv × Except Msg α)
    (k : α → List ExtEv × Except Msg β) (m : Msg) (h : r.2 = .error m) :
    withTrace r k = (r.1, .error m) := by
  unfold withTrace
  rw [h]

/-- A succeeding step passes its value on and prepends its trace. -/
theorem withTrace_ok {α β : Type} (r : List ExtEv × Except Msg α)
    (k : α → List ExtEv × Except Msg β) (a : α) (h : r.2 = .ok a) :
    withTrace r k = (r.1 ++ (k a).1, (k a).2) := by
  unfold withTrace
  rw [h]

/-! ## C2: the fallback policy -/

/-- C2 (confirmed): when the primary path fails, the Invidious fallback is
entered exactly once if the error message contains one of the signatures
`"Sign in to confirm"`, `"bot"`, `"age"`, and never otherwise; a
non-matching error propagates to the caller unchanged, a matching one makes
the request answer with the fallback's result. -/
theorem c2_fallback_policy (env : SysEnv) (m : Msg)
    (h : (downloadViaYtDlp env.yt).2 = .error m) :
    countEv (downloadVideoForWeb env).1 isInvidiousEv
        = (if isBotError m then 1 else 0)
    ∧ (isBotError m = true →
        (downloadVideoForWeb env).2 = env.invidiousResult)
    ∧ (isBotError m = false →
        (downloadVideoForWeb env).2 = .error m) := by
  have h0 : countEv (downloadViaYtDlp env.yt).1 isInvidiousEv = 0 :=
    countEv_eq_zero _ _ (downloadViaYtDlp_no_invidious env.yt)
  by_cases hb : isBotError m
  · have hw : downloadVideoForWeb env
        = ((downloadViaYtDlp env.yt).1 ++ [ExtEv.invidiousCall],
           env.invidiousResult) := by
      unfold downloadVideoForWeb
      simp [h, hb]
    rw [hw]
    refine ⟨?_, fun _ => rfl, fun hc => by rw [hb] at hc; cases hc⟩
    rw [countEv_append, h0, hb, if_pos rfl]
    rfl
  · have hw : downloadVideoForWeb env
        = ((downloadViaYtDlp env.yt).1, .error m) := by
      unfold downloadVideoForWeb
      simp [h, hb]
    rw [hw]
    refine ⟨?_, fun hc => absurd hc hb, fun _ => rfl⟩
    rw [h0, if_neg hb]

/-- Closed instantiation of C2: a request whose metadata query throws a
bot-detection error reroutes to the fallback exactly once; one whose
metadata query throws an unrelated error does not and keeps the error. -/
theorem c2_fallback_policy_witness :
    (countEv (downloadVideoForWeb
        ⟨{ isProduction := false, probeOk := fun _ => false,
           metaExec := .error (sLit "Sign in to confirm you are human"),
           stratOutcomes := [], dirListing := [], nowMs := 0 },
          .error (sLit "inv")⟩).1 isInvidiousEv = 1)
    ∧ ((downloadVideoForWeb
        ⟨{ isProduction := false, probeOk := fun _ => false,
           metaExec := .error (sLit "disk full"),
           stratOutcomes := [], dirListing := [], nowMs := 0 },
          .error (sLit "inv")⟩).2 = .error (sLit "disk full")) := by
  constructor
  · have := c2_fallback_policy
      ⟨{ isProduction := false, probeOk := fun _ => false,
         metaExec := .error (sLit "Sign in to confirm you are human"),
         stratOutcomes := [], dirListing := [], nowMs := 0 },
        .error (sLit "inv")⟩
      (sLit "Sign in to confirm you are human") (by decide)
    rw [this.1]
    decide
  · exact (c2_fallback_policy
      ⟨{ isProduction := false, probeOk := fun _ => false,
         metaExec := .error (sLit "disk full"),
         stratOutcomes := [], dirListing := [], nowMs := 0 },
        .error (sLit "inv")⟩
      (sLit "disk full") (by decide)).2.2 (by decide)

/-! ## C6: metadata fail-fast -/

/-- C6 (confirmed): a failing or unparseable metadata query fails the
request with zero strategy attempts, and a strategy attempt can only happen
after the metadata query succeeded. -/
theorem c6_metadata_failfast (env : YtEnv) :
    (∀ m, env.metaExec = .error m →
      (∃ m2, (downloadViaYtDlp env).2 = .error m2)
      ∧ countEv (downloadViaYtDlp env).1 isStratEv = 0)
    ∧ (env.metaExec = .ok none →
      (∃ m2, (downloadViaYtDlp env).2 = .error m2)
      ∧ countEv (downloadViaYtDlp env).1 isStratEv = 0)
    ∧ (0 < countEv (downloadViaYtDlp env).1 isStratEv →
      ∃ info, env.metaExec = .ok (some info)) := by
  have hdet0 : countEv (detectYtDlp env.isProduction env.probeOk).1
      isStratEv = 0 := by
    refine countEv_eq_zero _ _ ?_
    intro x hx
    have := mem_detectYtDlp env.isProduction env.probeOk x hx
    cases x <;> simp_all [isProbeEv, isStratEv]
  have key : ∀ m, metaResolve env.metaExec = .error m →
      (∃ m2, (downloadViaYtDlp env).2 = .error m2)
      ∧ countEv (downloadViaYtDlp env).1 isStratEv = 0 := by
    intro m hm
    unfold downloadViaYtDlp
    cases hd2 : (detectYtDlp env.isProduction env.probeOk).2 with
    | error dm =>
      rw [withTrace_error _ _ dm hd2]
      exact ⟨⟨dm, rfl⟩, hdet0⟩
    | ok cmd =>
      rw [withTrace_ok _ _ cmd hd2]
      rw [withTrace_error _ _ m (by simpa using hm)]
      refine ⟨⟨m, rfl⟩, ?_⟩
      rw [countEv_append, hdet0]
      rfl
  have h1 : ∀ m, env.metaExec = .error m →
      (∃ m2, (downloadViaYtDlp env).2 = .error m2)
      ∧ countEv (downloadViaYtDlp env).1 isStratEv = 0 := by
    intro m hm
    exact key m (by rw [metaResolve.eq_def, hm])
  have h2 : env.metaExec = .ok none →
      (∃ m2, (downloadViaYtDlp env).2 = .error m2)
      ∧ countEv (downloadViaYtDlp env).1 isStratEv = 0 := by
    intro hm
    exact key _ (by rw [metaResolve.eq_def, hm])
  refine ⟨h1, h2, ?_⟩
  intro hpos
  cases hme : env.metaExec with
  | error m =>
    rw [(h1 m hme).2] at hpos
    cases hpos
  | ok oinfo =>
    cases oinfo with
    | none =>
      rw [(h2 hme).2] at hpos
      cases hpos
    | some info => exact ⟨info, rfl⟩

/-- Closed instantiation of C6 at an environment whose metadata query
throws. -/
theorem c6_metadata_failfast_witness :
    (∃ m2, (downloadViaYtDlp
      { isProduction := false, probeOk := fun _ => false,
        metaExec := .error (sLit "boom"),
        stratOutcomes := [none], dirListing := [], nowMs := 0 }).2
        = .error m2)
    ∧ countEv (downloadViaYtDlp
      { isProduction := false, probeOk := fun _ => false,
        metaExec := .error (sLit "boom"),
        stratOutcomes := [none], dirListing := [], nowMs := 0 }).1
        isStratEv = 0 :=
  (c6_metadata_failfast
    { isProduction := false, probeOk := fun _ => false,
      metaExec := .error (sLit "boom"),
      stratOutcomes := [none], dirListing := [], nowMs := 0 }).1
    (sLit "boom") rfl

/-! ## C3: tool detection is re-probed per request -/

/-- C3 counterexample: in a production environment whose first candidate
probes successfully, serving a second request emits a second probe — the
probe count of two requests differs from that of one, so the detected
command is not process-wide state set once and reused. -/
theorem c3_reprobe_counterexample :
    ¬ (countEv (processTrace 2 c3Env) isProbeEv
        = countEv (processTrace 1 c3Env) isProbeEv) := by decide

/-- C3 (amended): the probe loop tries the ordered candidates with the
5-second-timeout version query, stops at the first that succeeds and uses
it for that request, and fails with the tool-not-found error when every
candidate fails; the detection is function-local, so the probe count of a
process grows linearly with its request count instead of staying at one
probe pass. -/
theorem c3_tool_detection_per_request :
    (∀ (probeOk : Msg → Bool) (pre : List Msg) (c : Msg) (rest : List Msg),
      (∀ p ∈ pre, probeOk p = false) → probeOk c = true →
      detectLoop probeOk (pre ++ c :: rest)
        = (pre.map (fun p => ExtEv.probe p 5000) ++ [ExtEv.probe c 5000],
           .ok c))
    ∧ (∀ (probeOk : Msg → Bool) (cands : List Msg),
      (∀ p ∈ cands, probeOk p = false) →
      detectLoop probeOk cands
        = (cands.map (fun p => ExtEv.probe p 5000),
           .error (sLit "yt-dlp não encontrado")))
    ∧ (∀ (env : YtEnv) (n : Nat),
      countEv (processTrace n env) isProbeEv
        = n * countEv (downloadViaYtDlp env).1 isProbeEv) := by
  refine ⟨?_, ?_, ?_⟩
  · intro probeOk pre
    induction pre with
    | nil =>
      intro c rest hpre hc
      simp [detectLoop, hc]
    | cons p ps ih =>
      intro c rest hpre hc
      have hp : probeOk p = false := hpre p (List.mem_cons_self _ _)
      simp [detectLoop, hp,
        ih c rest (fun q hq => hpre q (List.mem_cons_of_mem _ hq)) hc]
  · intro probeOk cands
    induction cands with
    | nil => intro _; rfl
    | cons p ps ih =>
      intro hall
      have hp : probeOk p = false := hall p (List.mem_cons_self _ _)
      simp [detectLoop, hp,
        ih (fun q hq => hall q (List.mem_cons_of_mem _ hq))]
  · intro env n
    induction n with
    | zero => simp [processTrace, countEv]
    | succ k ih =>
      show countEv ((downloadViaYtDlp env).1 ++ processTrace k env)
          isProbeEv = _
      rw [countEv_append, ih]
      ring

/-- Closed instantiation of the amended C3 theorem. -/
theorem c3_tool_detection_per_request_witness :
    detectLoop (fun c => c = sLit "yt-dlp")
        ([] ++ sLit "yt-dlp" :: [sLit "python3 -m yt_dlp"])
      = (([] : List Msg).map (fun p => ExtEv.probe p 5000)
          ++ [ExtEv.probe (sLit "yt-dlp") 5000], .ok (sLit "yt-dlp"))
    ∧ detectLoop (fun _ => false) ytdlpOptions
      = (ytdlpOptions.map (fun p => ExtEv.probe p 5000),
         .error (sLit "yt-dlp não encontrado"))
    ∧ countEv (processTrace 2 c3Env) isProbeEv
      = 2 * countEv (downloadViaYtDlp c3Env).1 isProbeEv :=
  ⟨c3_tool_detection_per_request.1 (fun c => c = sLit "yt-dlp") []
      (sLit "yt-dlp") [sLit "python3 -m yt_dlp"] (by decide) (by decide),
   c3_tool_detection_per_request.2.1 (fun _ => false) ytdlpOptions
      (by decide),
   c3_tool_detection_per_request.2.2 c3Env 2⟩

/-! ## C4: the File Locator/Verifier -/

/-- Sorting a two-element list with `mergeSort` compares the elements once. -/
theorem mergeSort_pair {α : Type} (a b : α) (le : α → α → Bool) :
    [a, b].mergeSort le = if le a b then [a, b] else [b, a] := by
  rw [List.mergeSort]
  have h1 : List.splitAt.go [a, b] [a, b] 1 [] = ([a], [b]) := rfl
  simp [List.splitInTwo, List.splitAt, h1, List.merge]

/-- The order `mtimeDesc` is transitive. -/
theorem mtimeDesc_trans (a b c : FileEntry) :
    mtimeDesc a b → mtimeDesc b c → mtimeDesc a c := by
  unfold mtimeDesc
  intro h1 h2
  simp only [decide_eq_true_eq] at *
  omega

/-- The order `mtimeDesc` is total. -/
theorem mtimeDesc_total (a b : FileEntry) : mtimeDesc a b || mtimeDesc b a := by
  unfold mtimeDesc
  rcases Int.le_total a.mtimeMs b.mtimeMs with h | h <;> simp [h]

/-- C4 (confirmed): the locator fails when no directory entry starts with
the sanitized title; a located file is a matching entry of maximal
modification time with nonzero size; when every matching entry has zero
size it fails with the empty-file error; and on `foo.mp4` (mtime 1000) next
to `foo.part` (mtime 1001) with title `foo` it picks `foo.part`. -/
theorem c4_file_locator :
    (∀ (title : Msg) (dir : List FileEntry),
      (∀ f ∈ dir, title.isPrefixOf f.name = false) →
      locateFile title dir = .error (sLit "Arquivo não foi criado"))
    ∧ (∀ (title : Msg) (dir : List FileEntry) (n : Msg),
      locateFile title dir = .ok n →
      ∃ f, f ∈ dir ∧ f.name = n ∧ title.isPrefixOf f.name = true
        ∧ f.size ≠ 0
        ∧ ∀ g ∈ dir, title.isPrefixOf g.name = true →
            g.mtimeMs ≤ f.mtimeMs)
    ∧ (∀ (title : Msg) (dir : List FileEntry) (f : FileEntry),
      f ∈ dir → title.isPrefixOf f.name = true →
      (∀ g ∈ dir, title.isPrefixOf g.name = true → g.size = 0) →
      locateFile title dir = .error (sLit "Arquivo vazio ou corrompido"))
    ∧ locateFile (sLit "foo")
        [⟨sLit "foo.mp4", 1000, 7⟩, ⟨sLit "foo.part", 1001, 7⟩]
      = .ok (sLit "foo.part") := by
  refine ⟨?_, ?_, ?_, ?_⟩
  · intro title dir h
    unfold locateFile
    have hf : dir.filter (fun f => title.isPrefixOf f.name) = [] :=
      List.filter_eq_nil_iff.mpr (by intro f hf; simp [h f hf])
    rw [hf, List.mergeSort_nil]
  · intro title dir n h
    unfold locateFile at h
    cases hms : (dir.filter (fun f => title.isPrefixOf f.name)).mergeSort
        mtimeDesc with
    | nil => rw [hms] at h; simp at h
    | cons f rest =>
      rw [hms] at h
      have h2 : (if f.size = 0
          then (Except.error (sLit "Arquivo vazio ou corrompido") :
            Except Msg Msg)
          else Except.ok f.name) = Except.ok n := h
      by_cases hsz : f.size = 0
      · rw [if_pos hsz] at h2; cases h2
      · rw [if_neg hsz] at h2
        have hn : f.name = n := by
          simpa using h2
        have hmem : f ∈ dir.filter (fun g => title.isPrefixOf g.name) :=
          List.mem_mergeSort.mp
            (by rw [hms]; exact List.mem_cons_self _ _)
        have hdir := List.mem_filter.mp hmem
        refine ⟨f, hdir.1, hn, hdir.2, hsz, ?_⟩
        intro g hg hgm
        have hgmem : g ∈ List.mergeSort
            (dir.filter (fun g => title.isPrefixOf g.name)) mtimeDesc :=
          List.mem_mergeSort.mpr (List.mem_filter.mpr ⟨hg, hgm⟩)
        rw [hms] at hgmem
        rcases List.mem_cons.mp hgmem with hEq | hTail
        · subst hEq; omega
        · have hsorted := @List.sorted_mergeSort FileEntry mtimeDesc
            (fun a b c => mtimeDesc_trans a b c)
            (fun a b => mtimeDesc_total a b)
            (dir.filter (fun g => title.isPrefixOf g.name))
          rw [hms] at hsorted
          have := (List.pairwise_cons.mp hsorted).1 g hTail
          simpa [mtimeDesc] using this
  · intro title dir f hfdir hfm hall
    unfold locateFile
    cases hms : (dir.filter (fun g => title.isPrefixOf g.name)).mergeSort
        mtimeDesc with
    | nil =>
      exfalso
      have : f ∈ List.mergeSort
          (dir.filter (fun g => title.isPrefixOf g.name)) mtimeDesc :=
        List.mem_mergeSort.mpr (List.mem_filter.mpr ⟨hfdir, hfm⟩)
      rw [hms] at this
      cases this
    | cons g rest =>
      have hg : g ∈ dir.filter (fun x => title.isPrefixOf x.name) :=
        List.mem_mergeSort.mp
          (by rw [hms]; exact List.mem_cons_self _ _)
      have hg2 := List.mem_filter.mp hg
      show (if g.size = 0
          then (Except.error (sLit "Arquivo vazio ou corrompido") :
            Except Msg Msg)
          else Except.ok g.name)
        = Except.error (sLit "Arquivo vazio ou corrompido")
      rw [if_pos (hall g hg2.1 hg2.2)]
  · unfold locateFile
    rw [show ([⟨sLit "foo.mp4", 1000, 7⟩,
        ⟨sLit "foo.part", 1001, 7⟩] : List FileEntry).filter
          (fun f => (sLit "foo").isPrefixOf f.name)
        = [⟨sLit "foo.mp4", 1000, 7⟩, ⟨sLit "foo.part", 1001, 7⟩] by decide]
    rw [mergeSort_pair]
    decide

/-- Closed instantiation of C4: no matching entry yields the
missing-file error; an all-empty matching set yields the empty-file
error. -/
theorem c4_file_locator_witness :
    locateFile (sLit "zz") [⟨sLit "ab", 5, 3⟩]
      = .error (sLit "Arquivo não foi criado")
    ∧ locateFile (sLit "a") [⟨sLit "ab", 5, 0⟩]
      = .error (sLit "Arquivo vazio ou corrompido") :=
  ⟨c4_file_locator.1 (sLit "zz") [⟨sLit "ab", 5, 3⟩] (by decide),
   c4_file_locator.2.2.1 (sLit "a") [⟨sLit "ab", 5, 0⟩] ⟨sLit "ab", 5, 0⟩
     (by decide) (by decide) (by decide)⟩

/-! ## C7: URL validation rejects before any external call -/

/-- C7 (confirmed): a request whose url fails `validateYouTubeUrl` is
answered 400 with an empty external trace — no probe, no metadata query, no
strategy attempt and no fallback call happen. -/
theorem c7_invalid_url_rejected (req : DownloadReq) (env : SysEnv) (url : Msg)
    (hu : req.url = some url) (hv : validateYouTubeUrl url = false) :
    (handleDownload req env).status = 400
    ∧ (handleDownload req env).evs = [] := by
  simp only [handleDownload, hu]
  by_cases he : url = []
  · simp [he]
  · simp [he, hv]

/-- Closed instantiation of C7 at a non-YouTube url. -/
theorem c7_invalid_url_rejected_witness :
    (handleDownload ⟨some (sLit "http://example.com/watch?v=abcdefghijk"),
        some (sLit "mp4")⟩
      ⟨{ isProduction := false, probeOk := fun _ => false,
         metaExec := .error (sLit "x"), stratOutcomes := [],
         dirListing := [], nowMs := 0 }, .error (sLit "inv")⟩).status = 400
    ∧ (handleDownload ⟨some (sLit "http://example.com/watch?v=abcdefghijk"),
        some (sLit "mp4")⟩
      ⟨{ isProduction := false, probeOk := fun _ => false,
         metaExec := .error (sLit "x"), stratOutcomes := [],
         dirListing := [], nowMs := 0 }, .error (sLit "inv")⟩).evs = [] :=
  c7_invalid_url_rejected _ _ (sLit "http://example.com/watch?v=abcdefghijk")
    rfl (by decide)

/-! ## C10: the format field does not influence the pipeline -/

/-- C10 (confirmed): two valid requests differing only in the `format`
field (one of the accepted formats or absent) produce identical handler
results — `downloadVideoForWeb` receives only the url, so status, body and
the external trace coincide. -/
theorem c10_format_noninterference (u : Option Msg) (f1 f2 : Option Msg)
    (env : SysEnv) (h1 : f1 ∈ allowedFormatFields)
    (h2 : f2 ∈ allowedFormatFields) :
    handleDownload ⟨u, f1⟩ env = handleDownload ⟨u, f2⟩ env := by
  have hv : ∀ f ∈ allowedFormatFields,
      f.getD (sLit "mp4") ∈ validFormats := by decide
  simp only [handleDownload]
  cases u with
  | none => rfl
  | some url =>
    by_cases he : url = []
    · simp [he]
    · by_cases hval : validateYouTubeUrl url = false
      · simp [he, hval]
      · simp [he, hval, hv f1 h1, hv f2 h2]

/-- Closed instantiation of C10 at two formats on the same valid url. -/
theorem c10_format_noninterference_witness :
    handleDownload ⟨some (sLit "https://youtu.be/abcdefghijk"),
        some (sLit "mp4")⟩
      ⟨{ isProduction := false, probeOk := fun _ => false,
         metaExec := .error (sLit "x"), stratOutcomes := [],
         dirListing := [], nowMs := 0 }, .error (sLit "inv")⟩
    = handleDownload ⟨some (sLit "https://youtu.be/abcdefghijk"),
        some (sLit "webm")⟩
      ⟨{ isProduction := false, probeOk := fun _ => false,
         metaExec := .error (sLit "x"), stratOutcomes := [],
         dirListing := [], nowMs := 0 }, .error (sLit "inv")⟩ :=
  c10_format_noninterference (some (sLit "https://youtu.be/abcdefghijk"))
    (some (sLit "mp4")) (some (sLit "webm"))
    ⟨{ isProduction := false, probeOk := fun _ => false,
       metaExec := .error (sLit "x"), stratOutcomes := [],
       dirListing := [], nowMs := 0 }, .error (sLit "inv")⟩
    (by decide) (by decide)

/-! ## C8: the Retention Sweeper -/

/-- The sweeper's fold emits its accumulator first. -/
theorem cleanupOldFiles_acc (nowMs maxAgeHours : Nat) :
    ∀ (files : List SweepFile) (acc : List Msg),
    files.foldl (fun acc f =>
      if nowMs - f.mtimeMs > maxAgeHours * 60 * 60 * 1000 then
        (if f.unlinkOk then acc ++ [f.name] else acc)
      else acc) acc
    = acc ++ files.foldl (fun acc f =>
      if nowMs - f.mtimeMs > maxAgeHours * 60 * 60 * 1000 then
        (if f.unlinkOk then acc ++ [f.name] else acc)
      else acc) [] := by
  intro files
  induction files with
  | nil => intro acc; simp
  | cons f fs ih =>
    intro acc
    simp only [List.foldl_cons]
    rw [ih, ih (if nowMs - f.mtimeMs > maxAgeHours * 60 * 60 * 1000 then
      (if f.unlinkOk then [] ++ [f.name] else []) else [])]
    by_cases hage : nowMs - f.mtimeMs > maxAgeHours * 60 * 60 * 1000
    · by_cases hok : f.unlinkOk <;> simp [hage, hok]
    · simp [hage]

/-- C8 (confirmed): a sweep deletes exactly the files whose age strictly
exceeds the threshold and whose deletion succeeds, in directory order;
every younger file is left; a failing deletion affects only its own file —
the fold decomposes around it; and on ages {1h, 25h, 48h} with threshold
24h exactly the 25h and 48h files go. -/
theorem c8_retention_sweep :
    (∀ (nowMs maxAgeHours : Nat) (files : List SweepFile),
      cleanupOldFiles nowMs maxAgeHours files
        = (files.filter (fun f =>
            decide (nowMs - f.mtimeMs > maxAgeHours * 60 * 60 * 1000)
              && f.unlinkOk)).map (fun f => f.name))
    ∧ (∀ (nowMs maxAgeHours : Nat) (pre : List SweepFile) (f : SweepFile)
        (rest : List SweepFile),
      cleanupOldFiles nowMs maxAgeHours (pre ++ f :: rest)
        = cleanupOldFiles nowMs maxAgeHours pre
          ++ cleanupOldFiles nowMs maxAgeHours [f]
          ++ cleanupOldFiles nowMs maxAgeHours rest)
    ∧ cleanupOldFiles (48 * 60 * 60 * 1000) 24
        [⟨sLit "a", 47 * 60 * 60 * 1000, true⟩,
         ⟨sLit "b", 23 * 60 * 60 * 1000, true⟩,
         ⟨sLit "c", 0, true⟩]
      = [sLit "b", sLit "c"] := by
  have key : ∀ (nowMs maxAgeHours : Nat) (files : List SweepFile),
      cleanupOldFiles nowMs maxAgeHours files
        = (files.filter (fun f =>
            decide (nowMs - f.mtimeMs > maxAgeHours * 60 * 60 * 1000)
              && f.unlinkOk)).map (fun f => f.name) := by
    intro nowMs maxAgeHours files
    induction files with
    | nil => rfl
    | cons f fs ih =>
      unfold cleanupOldFiles at *
      simp only [List.foldl_cons]
      rw [cleanupOldFiles_acc]
      by_cases hage : nowMs - f.mtimeMs > maxAgeHours * 60 * 60 * 1000
      · by_cases hok : f.unlinkOk <;>
          simp [hage, hok, List.filter_cons, ih]
      · simp [hage, List.filter_cons, ih]
  refine ⟨key, ?_, ?_⟩
  · intro nowMs maxAgeHours pre f rest
    rw [key, key, key, key]
    simp only [List.filter_append, List.map_append, List.append_assoc]
    congr 1
    by_cases hc : (decide (nowMs - f.mtimeMs > maxAgeHours * 60 * 60 * 1000)
        && f.unlinkOk) = true
    · simp [List.filter_cons, hc]
    · simp [List.filter_cons, hc]
  · rw [key]
    decide

/-! ## C9: error classification -/

/-- C9 (confirmed): the classifier maps every raw error text into a fixed
closed set of user-facing messages, each distinct from the generic
internal-error message of the route, and the choice depends only on which
of the fixed signature substrings match — no other content of the raw
error (stack or diagnostic detail) can reach the output. -/
theorem c9_error_classification :
    (∀ m, classifyError m ∈ classificationMessages)
    ∧ (∀ c ∈ classificationMessages, c ≠ genericInternalError)
    ∧ (∀ m1 m2,
        (∀ s ∈ errorSignatures, containsSub m1 s = containsSub m2 s) →
        classifyError m1 = classifyError m2) := by
  refine ⟨?_, by decide, ?_⟩
  · intro m
    unfold classifyError
    split_ifs <;> decide
  · intro m1 m2 h
    unfold classifyError
    rw [h (sLit "Video unavailable") (by decide),
      h (sLit "Private video") (by decide),
      h (sLit "Sign in to confirm") (by decide),
      h (sLit "age") (by decide),
      h (sLit "This video is not available") (by decide),
      h (sLit "removed") (by decide),
      h (sLit "network") (by decide),
      h (sLit "timeout") (by decide),
      h (sLit "Connection") (by decide),
      h (sLit "format") (by decide),
      h (sLit "No video formats") (by decide),
      h (sLit "Command failed") (by decide)]

/-- Closed instantiation of C9: a concrete classified message, its
distinctness from the generic message, and two raw errors agreeing on all
signatures classifying alike. -/
theorem c9_error_classification_witness :
    classifyError (sLit "ERROR: connect timeout at s.js:1")
      ∈ classificationMessages
    ∧ sLit "Vídeo não disponível ou privado" ≠ genericInternalError
    ∧ classifyError (sLit "x timeout stack frame A")
      = classifyError (sLit "y timeout other stack") :=
  ⟨c9_error_classification.1 (sLit "ERROR: connect timeout at s.js:1"),
   c9_error_classification.2.1 (sLit "Vídeo não disponível ou privado")
     (by decide),
   c9_error_classification.2.2 (sLit "x timeout stack frame A")
     (sLit "y timeout other stack") (by decide)⟩
